import Mathlib

/-!
Verification of the Crowny balanced-ternary SDK core against its design
specification.  The definitions below are a shallow embedding of the
TypeScript source (`Trit`, `CtpHeader`, `CrownyClient`, `CrownyLocal`):
pure functions become Lean functions, the client's mutable fields become
explicit state passing, and the transport call becomes an `Except`-valued
input.  JavaScript numbers are modelled as exact rationals extended with
the special values NaN and ±Infinity (double rounding/overflow is out of
scope for the verified properties).
-/

namespace Crowny

/-- Ternary value: `P` (+1, success), `O` (0, pending), `T` (-1, failed). -/
inductive Trit where
  | P
  | O
  | T
deriving DecidableEq, Repr

/-- `Trit.from(n)`: n>0 → P, n<0 → T, else O.  (`from` is a Lean keyword, hence `ofNum`.) -/
def Trit.ofNum (n : Int) : Trit :=
  if 0 < n then .P else if n < 0 then .T else .O

/-- `Trit.toNumber`. -/
def Trit.toNumber : Trit → Int
  | .P => 1
  | .T => -1
  | .O => 0

/-- `Trit.not`: sign flip. -/
def Trit.not : Trit → Trit
  | .P => .T
  | .T => .P
  | .O => .O

/-- `Trit.and`: minimum in the signed order. -/
def Trit.and (a b : Trit) : Trit :=
  Trit.ofNum (min a.toNumber b.toNumber)

/-- `Trit.or`: maximum in the signed order. -/
def Trit.or (a b : Trit) : Trit :=
  Trit.ofNum (max a.toNumber b.toNumber)

/-- `Trit.consensus(trits)`: majority vote.  `p` counts `'P'` entries, `t`
counts `'T'` entries (the two `filter(...).length` expressions of the
source); returns P if `p > t`, T if `t > p`, else O. -/
def Trit.consensus (trits : List Trit) : Trit :=
  let p := (trits.filter (fun x => decide (x = Trit.P))).length
  let t := (trits.filter (fun x => decide (x = Trit.T))).length
  if t < p then .P
  else if p < t then .T
  else .O

-- ═══════════ CTP Header ═══════════

/-- A CTP header: the `trits` field of the `CtpHeader` class. -/
structure CtpHeader where
  trits : List Trit
deriving DecidableEq, Repr

/-- The `CtpHeader` constructor: `trits.slice(0, 9)` then pad with `'O'`
while the length is below 9. -/
def CtpHeader.make (ts : List Trit) : CtpHeader :=
  ⟨ts.take 9 ++ List.replicate (9 - (ts.take 9).length) Trit.O⟩

/-- `CtpHeader.success()`. -/
def CtpHeader.success : CtpHeader :=
  CtpHeader.make [.P, .P, .P, .O, .O, .O, .O, .O, .O]

/-- `CtpHeader.failed()`. -/
def CtpHeader.failed : CtpHeader :=
  CtpHeader.make [.T, .T, .T, .O, .O, .O, .O, .O, .O]

/-- The per-character mapping inside `CtpHeader.fromString`:
`'P'/'+'/'1'` → P, `'T'/'-'` → T, anything else → O. -/
def Trit.tritOfChar (c : Char) : Trit :=
  if c = 'P' ∨ c = '+' ∨ c = '1' then .P
  else if c = 'T' ∨ c = '-' then .T
  else .O

/-- `CtpHeader.fromString(s)`: map each character, then normalize through
the constructor. -/
def CtpHeader.fromString (s : String) : CtpHeader :=
  CtpHeader.make (s.toList.map Trit.tritOfChar)

/-- Serialization character of one trit (the trits of the TS class are
already the characters `'P'/'O'/'T'`). -/
def Trit.char : Trit → Char
  | .P => 'P'
  | .O => 'O'
  | .T => 'T'

/-- `CtpHeader.toString()`: `trits.join('')`. -/
def CtpHeader.toString (h : CtpHeader) : String :=
  String.mk (h.trits.map Trit.char)

/-- `CtpHeader.overallState`: any `'T'` slot → T, else all-`'P'` → P, else O. -/
def CtpHeader.overallState (h : CtpHeader) : Trit :=
  if Trit.T ∈ h.trits then .T
  else if ∀ t ∈ h.trits, t = Trit.P then .P
  else .O

-- ═══════════ JS value model (for CrownyLocal) ═══════════

/-- Rational addition through the normalizing constructor `mkRat`.  (The
library's `Rat.add` is `@[irreducible]`, which blocks kernel evaluation of
concrete programs; this is the ordinary fraction sum, kept evaluable.) -/
def ratAdd (a b : ℚ) : ℚ := mkRat (a.num * b.den + b.num * a.den) (a.den * b.den)

/-- Rational negation through `mkRat` (kept kernel-evaluable). -/
def ratNeg (a : ℚ) : ℚ := mkRat (-a.num) a.den

/-- Rational multiplication through `mkRat` (kept kernel-evaluable). -/
def ratMul (a b : ℚ) : ℚ := mkRat (a.num * b.num) (a.den * b.den)

/-- Rational division through `Rat.divInt` (kept kernel-evaluable; callers
guard the zero divisor). -/
def ratDiv (a b : ℚ) : ℚ := Rat.divInt (a.num * b.den) (a.den * b.num)

/-- JavaScript number model: exact rationals plus NaN and ±Infinity.
(Double rounding/overflow and negative zero are not modelled; no verified
property depends on them.) -/
inductive JsNum where
  | fin : ℚ → JsNum
  | nan
  | inf
  | ninf
deriving DecidableEq, Repr

/-- JS numeric addition. -/
def JsNum.add : JsNum → JsNum → JsNum
  | .fin a, .fin b => .fin (ratAdd a b)
  | .nan, _ => .nan
  | _, .nan => .nan
  | .inf, .ninf => .nan
  | .ninf, .inf => .nan
  | .inf, _ => .inf
  | _, .inf => .inf
  | .ninf, _ => .ninf
  | _, .ninf => .ninf

/-- JS numeric negation. -/
def JsNum.neg : JsNum → JsNum
  | .fin a => .fin (ratNeg a)
  | .nan => .nan
  | .inf => .ninf
  | .ninf => .inf

/-- JS numeric subtraction. -/
def JsNum.sub (a b : JsNum) : JsNum := a.add b.neg

/-- JS numeric multiplication. -/
def JsNum.mul : JsNum → JsNum → JsNum
  | .fin a, .fin b => .fin (ratMul a b)
  | .nan, _ => .nan
  | _, .nan => .nan
  | .inf, .inf => .inf
  | .inf, .ninf => .ninf
  | .ninf, .inf => .ninf
  | .ninf, .ninf => .inf
  | .inf, .fin b => if b = 0 then .nan else if 0 < b then .inf else .ninf
  | .fin a, .inf => if a = 0 then .nan else if 0 < a then .inf else .ninf
  | .ninf, .fin b => if b = 0 then .nan else if 0 < b then .ninf else .inf
  | .fin a, .ninf => if a = 0 then .nan else if 0 < a then .ninf else .inf

/-- JS numeric division (division of finites by zero gives ±Infinity or NaN,
as in JS without negative zero). -/
def JsNum.div : JsNum → JsNum → JsNum
  | .nan, _ => .nan
  | _, .nan => .nan
  | .fin a, .fin b =>
      if b = 0 then (if a = 0 then .nan else if 0 < a then .inf else .ninf)
      else .fin (ratDiv a b)
  | .fin _, .inf => .fin 0
  | .fin _, .ninf => .fin 0
  | .inf, .fin b => if 0 ≤ b then .inf else .ninf
  | .ninf, .fin b => if 0 ≤ b then .ninf else .inf
  | .inf, _ => .nan
  | .ninf, _ => .nan

/-- A dynamically typed interpreter stack value: number or string. -/
inductive Value where
  | num : JsNum → Value
  | str : String → Value
deriving DecidableEq, Repr

/-- JS truthiness on stack values: the number 0, NaN and the empty string
are falsy. -/
def Value.falsy : Value → Bool
  | .num (.fin q) => decide (q = 0)
  | .num .nan => true
  | .num _ => false
  | .str s => decide (s = "")

/-- Decimal digits to a natural number. -/
def digitsToNat (l : List Char) : ℕ :=
  l.foldl (fun acc c => acc * 10 + (c.toNat - Char.toNat '0')) 0

/-- Unsigned decimal literal `digits[.digits]` with at least one digit
(`"1."` and `".5"` are accepted, as by JS `Number`). -/
def parseDecimal (l : List Char) : Option ℚ :=
  let intPart := l.takeWhile Char.isDigit
  let rest := l.dropWhile Char.isDigit
  match rest with
  | [] => if intPart.isEmpty then none else some (mkRat (digitsToNat intPart) 1)
  | '.' :: frac =>
      if frac.all Char.isDigit && !(intPart.isEmpty && frac.isEmpty) then
        some (mkRat (digitsToNat intPart * 10 ^ frac.length + digitsToNat frac) (10 ^ frac.length))
      else none
  | _ => none

/-- Whitespace trim on a character list. -/
def trimL (l : List Char) : List Char :=
  ((l.dropWhile Char.isWhitespace).reverse.dropWhile Char.isWhitespace).reverse

/-- Model of JS `Number(s)`: trim, empty → 0, optionally signed decimal
literal, anything else → NaN.  (Hex, exponent and `Infinity` literal forms
are not modelled; no verified property exercises them.) -/
def jsNumber (s : String) : JsNum :=
  match trimL s.toList with
  | [] => .fin 0
  | '+' :: rest =>
      match parseDecimal rest with
      | some q => .fin q
      | none => .nan
  | '-' :: rest =>
      match parseDecimal rest with
      | some q => .fin (ratNeg q)
      | none => .nan
  | l =>
      match parseDecimal l with
      | some q => .fin q
      | none => .nan

/-- Number rendering for string concatenation.  Integers render as in JS;
non-integral rationals use a `num/den` form (JS shortest-double formatting
is out of scope; no verified property depends on it). -/
def JsNum.render : JsNum → String
  | .fin q =>
      if q.den = 1 then
        (if q.num < 0 then "-" ++ Nat.repr q.num.natAbs else Nat.repr q.num.natAbs)
      else
        (if q.num < 0 then "-" else "") ++ Nat.repr q.num.natAbs ++ "/" ++ Nat.repr q.den
  | .nan => "NaN"
  | .inf => "Infinity"
  | .ninf => "-Infinity"

/-- JS string coercion of a stack value. -/
def Value.render : Value → String
  | .num n => n.render
  | .str s => s

/-- JS number coercion of a stack value. -/
def jsToNumber : Value → JsNum
  | .num n => n
  | .str s => jsNumber s

/-- JS `+` on stack values: string concatenation when either side is a
string, numeric addition otherwise. -/
def jsAdd (a b : Value) : Value :=
  match a, b with
  | .str _, _ => .str (a.render ++ b.render)
  | _, .str _ => .str (a.render ++ b.render)
  | .num x, .num y => .num (x.add y)

/-- JS `-` on stack values. -/
def jsSub (a b : Value) : Value := .num ((jsToNumber a).sub (jsToNumber b))

/-- JS `*` on stack values. -/
def jsMul (a b : Value) : Value := .num ((jsToNumber a).mul (jsToNumber b))

/-- JS `/` on stack values. -/
def jsDiv (a b : Value) : Value := .num ((jsToNumber a).div (jsToNumber b))

-- ═══════════ CrownyLocal ═══════════

/-- `this.stack.pop() || d`: pop the top of stack; an absent or falsy popped
value is replaced by the default `d`. -/
def popDefault (st : List Value) (d : Value) : Value × List Value :=
  match st with
  | [] => (d, [])
  | v :: rest => (if v.falsy then d else v, rest)

/-- Split a character list at whitespace runs (the effect of
`split(/\s+/)` on a trimmed line), accumulator-based. -/
def splitWsAux : List Char → List Char → List (List Char)
  | [], acc => if acc.isEmpty then [] else [acc.reverse]
  | c :: rest, acc =>
      if c.isWhitespace then
        (if acc.isEmpty then splitWsAux rest [] else acc.reverse :: splitWsAux rest [])
      else splitWsAux rest (c :: acc)

/-- `line.split(/\s+/)` of the source, on an already-trimmed line. -/
def tokens (line : String) : List String :=
  (splitWsAux line.toList []).map String.mk

/-- The leading token `parts[0]` of a line. -/
def lineCmd (line : String) : String := (tokens line).headD ""

/-- `val.replace(/"/g, '')`: delete every double-quote character. -/
def stripQuotes (s : String) : String :=
  String.mk (s.toList.filter (fun c => decide (c ≠ '"')))

/-- Every leading token the interpreter's switch recognizes. -/
def recognizedCmds : List String :=
  ["넣어", "push", "값", "val", "더해", "add", "더", "빼", "sub",
   "곱해", "mul", "곱", "나눠", "div", "보여줘", "print",
   "복사", "dup", "바꿔", "swap", "참", "P", "모름", "O", "거짓", "T"]

/-- One dispatch step of `CrownyLocal.execute` on a (trimmed, non-comment,
non-terminator) line.  The switch of the source has no default case, so an
unrecognized leading token leaves the stack unchanged; `print` only logs. -/
def stepLine (stack : List Value) (line : String) : List Value :=
  let parts := tokens line
  let cmd := parts.headD ""
  if cmd = "넣어" ∨ cmd = "push" ∨ cmd = "값" ∨ cmd = "val" then
    let val := " ".intercalate parts.tail
    match jsNumber val with
    | .nan => .str (stripQuotes val) :: stack
    | n => .num n :: stack
  else if cmd = "더해" ∨ cmd = "add" ∨ cmd = "더" then
    let p1 := popDefault stack (.num (.fin 0))
    let p2 := popDefault p1.2 (.num (.fin 0))
    jsAdd p2.1 p1.1 :: p2.2
  else if cmd = "빼" ∨ cmd = "sub" then
    let p1 := popDefault stack (.num (.fin 0))
    let p2 := popDefault p1.2 (.num (.fin 0))
    jsSub p2.1 p1.1 :: p2.2
  else if cmd = "곱해" ∨ cmd = "mul" ∨ cmd = "곱" then
    let p1 := popDefault stack (.num (.fin 0))
    let p2 := popDefault p1.2 (.num (.fin 0))
    jsMul p2.1 p1.1 :: p2.2
  else if cmd = "나눠" ∨ cmd = "div" then
    let p1 := popDefault stack (.num (.fin 1))
    let p2 := popDefault p1.2 (.num (.fin 0))
    (if p1.1 = Value.num (.fin 0) then Value.num (.fin 0) else jsDiv p2.1 p1.1) :: p2.2
  else if cmd = "보여줘" ∨ cmd = "print" then
    stack
  else if cmd = "복사" ∨ cmd = "dup" then
    match stack with
    | v :: rest => v :: v :: rest
    | [] => []
  else if cmd = "바꿔" ∨ cmd = "swap" then
    match stack with
    | x :: y :: rest => y :: x :: rest
    | other => other
  else if cmd = "참" ∨ cmd = "P" then
    Value.num (.fin 1) :: stack
  else if cmd = "모름" ∨ cmd = "O" then
    Value.num (.fin 0) :: stack
  else if cmd = "거짓" ∨ cmd = "T" then
    Value.num (.fin (-1)) :: stack
  else
    stack

/-- Split a character list at newline characters, keeping empty segments
(the effect of `split('\n')`), accumulator-based. -/
def splitLinesAux : List Char → List Char → List (List Char)
  | [], acc => [acc.reverse]
  | c :: rest, acc =>
      if c = '\n' then acc.reverse :: splitLinesAux rest []
      else splitLinesAux rest (c :: acc)

/-- Does the line start with the comment marker `';'`? -/
def startsSemi (s : String) : Bool :=
  match s.toList with
  | ';' :: _ => true
  | _ => false

/-- `source.split('\n').map(l => l.trim()).filter(l => l && !l.startsWith(';'))`. -/
def progLines (source : String) : List String :=
  ((splitLinesAux source.toList []).map (fun l => String.mk (trimL l))).filter
    (fun l => !(decide (l = "")) && !(startsSemi l))

/-- Is the line one of the three terminator aliases (`break` in the loop)? -/
def isTerm (l : String) : Bool :=
  decide (l = "종료") || decide (l = "end") || decide (l = "끝")

/-- The final stack of one `execute` call: fold the dispatch over the lines
before the first terminator, starting from the empty stack
(`this.stack = []` at entry). -/
def runStack (source : String) : List Value :=
  ((progLines source).takeWhile (fun l => !(isTerm l))).foldl stepLine []

-- ═══════════ Client data model ═══════════

/-- A decoded transport response body.  `sangtae` models the localized
`상태` (status) key and `gyeolgwa` the localized `결과` (result) key;
`status` is a generic field a remote may send but that the client code
never reads.  Absent fields are `none`; field values are modelled as
strings. -/
structure Response where
  sangtae : Option String
  state : Option String
  status : Option String
  gyeolgwa : Option String
  data : Option String
deriving DecidableEq, Repr

/-- The dynamically typed `data` field of a `TritResult`: the local
interpreter stores the top of stack (or null), the client stores the
extracted payload string, the whole response body, or an error object
`\x7b error: message \x7d`. -/
inductive RData where
  | ofVal : Option Value → RData
  | ofStr : String → RData
  | ofResponse : Response → RData
  | ofError : String → RData
deriving DecidableEq, Repr

/-- `TritResult`: the standard result record. -/
structure TritResult where
  state : Trit
  data : RData
  elapsed_ms : ℕ
  task_id : ℕ
deriving DecidableEq, Repr

/-- `CrownyLocal.execute(source)`: run the stack program; the returned state
is always P and `data` is the final top of stack (`ofVal none`, i.e. null,
for an empty stack).  Elapsed wall-clock time is an external input.  Every
dispatch arm is total, so the catch branch of the source that would produce
a Failed result is unreachable and is not part of the returned value. -/
def CrownyLocal.execute (source : String) (elapsed : ℕ) : TritResult :=
  { state := .P
    data := .ofVal (runStack source).head?
    elapsed_ms := elapsed
    task_id := 0 }

-- ═══════════ CrownyClient ═══════════

/-- JS `a || b` on optional string fields: an absent (`undefined`) or empty
(falsy) left operand selects the right operand. -/
def jsOrStr : Option String → Option String → Option String
  | some s, b => if s = "" then b else some s
  | none, b => b

/-- Is `needle` an initial segment of `hay`? (helper for substring tests). -/
def startsL : List Char → List Char → Bool
  | _, [] => true
  | [], _ :: _ => false
  | a :: as, b :: bs => decide (a = b) && startsL as bs

/-- Does `hay` contain `needle` as a contiguous substring? (JS
`String.includes`). -/
def hasSubL : List Char → List Char → Bool
  | [], needle => needle.isEmpty
  | h :: t, needle => startsL (h :: t) needle || hasSubL t needle

/-- JS `s.includes(sub)`. -/
def hasSub (s sub : String) : Bool := hasSubL s.toList sub.toList

/-- `CrownyClient.parseTrit(s)`: substring match against the success
indicators (`'P'`, `'성공'`, `'Success'`), then the failure indicators
(`'T'`, `'실패'`, `'Failed'`), else Pending. -/
def parseTrit (s : String) : Trit :=
  if hasSub s "P" || hasSub s "성공" || hasSub s "Success" then .P
  else if hasSub s "T" || hasSub s "실패" || hasSub s "Failed" then .T
  else .O

/-- The mutable state of a `CrownyClient`: the result history and the task
counter.  (The transport configuration `baseUrl`/`timeout`/`ctp` and the
`onTritResult` callback do not influence the verified properties and are
not part of the state model.) -/
structure CrownyClient where
  history : List TritResult
  taskCounter : ℕ
deriving DecidableEq, Repr

/-- A fresh client: empty history, task counter 0. -/
def CrownyClient.init : CrownyClient := ⟨[], 0⟩

/-- `CrownyClient.submit(task)`.  The transport call is an external input:
`.ok response` models a decodable response body, `.error e` models any
transport failure (network error, malformed payload, non-decodable
response, i.e. everything the `catch` receives).  Elapsed wall-clock time
is an external input.  The task counter is incremented before the call;
both branches build a `TritResult`, append it to the history (`push`) and
return it.  On success the state is
`parseTrit(response.상태 || response.state || 'O')` and the data is
`response.결과 || response.data || response`; on failure the state is T and
the data the error message. -/
def CrownyClient.submit (c : CrownyClient) (outcome : Except String Response)
    (elapsed : ℕ) : TritResult × CrownyClient :=
  let taskId := c.taskCounter + 1
  match outcome with
  | .ok response =>
      let st := parseTrit ((jsOrStr (jsOrStr response.sangtae response.state)
        (some "O")).getD "O")
      let d : RData :=
        match jsOrStr (jsOrStr response.gyeolgwa response.data) none with
        | some s => .ofStr s
        | none => .ofResponse response
      let r : TritResult := ⟨st, d, elapsed, taskId⟩
      (r, ⟨c.history ++ [r], taskId⟩)
  | .error e =>
      let r : TritResult := ⟨.T, .ofError e, elapsed, taskId⟩
      (r, ⟨c.history ++ [r], taskId⟩)

/-- A sequence of submit calls on one client (each transport outcome is an
external input; elapsed times taken as 0). -/
def CrownyClient.submitAll (c : CrownyClient) (outcomes : List (Except String Response)) :
    CrownyClient :=
  outcomes.foldl (fun acc o => (acc.submit o 0).2) c

/-- `getHistory()`: a copy of the history. -/
def CrownyClient.getHistory (c : CrownyClient) : List TritResult := c.history

/-- `ConsensusResult`. -/
structure ConsensusResult where
  consensus : Trit
  models : List (String × TritResult)
  trits : List Trit
  ctp : CtpHeader
  elapsed_ms : ℕ
deriving DecidableEq, Repr

/-- `CrownyClient.consensus(prompt, models)`: fan the prompt out to every
named source and aggregate.  The per-source call
`model => this.ask(prompt, model)` is abstracted as the function `ask`
from source name to its settled `TritResult`; `Promise.all` returns the
results in dispatch order, i.e. `models.map ask`, independent of
completion order.  The header is built from
`[final, ...trits, 'O','O','O','O','O']` through the `CtpHeader`
constructor. -/
def CrownyClient.consensus (ask : String → TritResult) (models : List String)
    (elapsed : ℕ) : ConsensusResult :=
  let results := models.map ask
  let trits := results.map (·.state)
  let final := Trit.consensus trits
  { consensus := final
    models := models.zip results
    trits := trits
    ctp := CtpHeader.make (final :: trits ++ [.O, .O, .O, .O, .O])
    elapsed_ms := elapsed }

/-- Modelled from the spec: the status-field extraction as §6 words it — the
ternary status is read from "the first present field among a localized key,
an English `state` key, and a generic `status` key".  This definition
follows the spec text and exists only to be compared with the extraction
the code actually performs inside `CrownyClient.submit`. -/
def specStatusField (r : Response) : String :=
  match r.sangtae with
  | some s => s
  | none =>
      match r.state with
      | some s => s
      | none =>
          match r.status with
          | some s => s
          | none => "O"

-- ═══════════ Theorems: Trit algebra and CtpHeader ═══════════

/-- Counting by `filter(...).length` (as the source does) agrees with `List.count`. -/
theorem Trit.count_eq_filter_length (l : List Trit) (a : Trit) :
    l.count a = (l.filter (fun x => decide (x = a))).length := by
  rw [List.count_eq_countP, List.countP_eq_length_filter]
  rfl

/-- C1: `Trit.consensus` is majority vote: it returns Success (P) exactly when
Success entries outnumber Failed (T) entries, Failed exactly when Failed
entries outnumber Success entries, and Pending (O) exactly when the two
counts are equal. Pending entries contribute to neither tally, so the empty
sequence and every all-Pending sequence yield Pending. -/
theorem Trit.consensus_majority :
    (∀ l : List Trit,
      (Trit.consensus l = Trit.P ↔ l.count Trit.T < l.count Trit.P)
      ∧ (Trit.consensus l = Trit.T ↔ l.count Trit.P < l.count Trit.T)
      ∧ (Trit.consensus l = Trit.O ↔ l.count Trit.P = l.count Trit.T))
    ∧ Trit.consensus [] = Trit.O
    ∧ (∀ n : ℕ, Trit.consensus (List.replicate n Trit.O) = Trit.O) := by
  have hmain : ∀ l : List Trit,
      (Trit.consensus l = Trit.P ↔ l.count Trit.T < l.count Trit.P)
      ∧ (Trit.consensus l = Trit.T ↔ l.count Trit.P < l.count Trit.T)
      ∧ (Trit.consensus l = Trit.O ↔ l.count Trit.P = l.count Trit.T) := by
    intro l
    have hc : Trit.consensus l =
        if (l.filter (fun x => decide (x = Trit.T))).length
            < (l.filter (fun x => decide (x = Trit.P))).length then Trit.P
        else if (l.filter (fun x => decide (x = Trit.P))).length
            < (l.filter (fun x => decide (x = Trit.T))).length then Trit.T
        else Trit.O := rfl
    rw [hc, ← Trit.count_eq_filter_length l Trit.P, ← Trit.count_eq_filter_length l Trit.T]
    split_ifs with h1 h2
    · exact ⟨iff_of_true rfl h1, iff_of_false (by decide) (by omega),
        iff_of_false (by decide) (by omega)⟩
    · exact ⟨iff_of_false (by decide) (by omega), iff_of_true rfl h2,
        iff_of_false (by decide) (by omega)⟩
    · exact ⟨iff_of_false (by decide) (by omega), iff_of_false (by decide) (by omega),
        iff_of_true rfl (by omega)⟩
  refine ⟨hmain, (hmain []).2.2.mpr rfl, fun n => (hmain _).2.2.mpr ?_⟩
  simp [List.count_replicate]

/-- C5: `overallState` over a 9-slot header: a single Failed slot vetoes the
whole header (Failed); with no Failed slot, all-Success gives Success and
anything else gives Pending. In particular the canonical failure header is
overall Failed, and the canonical success header is overall Pending (its
slots 3-8 are Pending). -/
theorem CtpHeader.overallState_cases (h : CtpHeader) (h9 : h.trits.length = 9) :
    (Trit.T ∈ h.trits → h.overallState = Trit.T)
    ∧ (Trit.T ∉ h.trits → (∀ t ∈ h.trits, t = Trit.P) → h.overallState = Trit.P)
    ∧ (Trit.T ∉ h.trits → ¬(∀ t ∈ h.trits, t = Trit.P) → h.overallState = Trit.O)
    ∧ CtpHeader.failed.overallState = Trit.T
    ∧ CtpHeader.success.overallState = Trit.O := by
  unfold CtpHeader.overallState
  exact ⟨fun ht => by rw [if_pos ht], fun ht hp => by rw [if_neg ht, if_pos hp],
    fun ht hp => by rw [if_neg ht, if_neg hp], by decide, by decide⟩

/-- Witness for C5 at concrete headers. -/
theorem CtpHeader.overallState_cases_witness :
    CtpHeader.failed.overallState = Trit.T ∧ CtpHeader.success.overallState = Trit.O :=
  ⟨(CtpHeader.overallState_cases CtpHeader.failed (by decide)).1 (by decide),
   (CtpHeader.overallState_cases CtpHeader.success (by decide)).2.2.1 (by decide) (by decide)⟩

/-- C6: parsing a 9-character string over the alphabet {'P','O','T'} and
serializing the header back yields the original string. -/
theorem CtpHeader.fromString_toString (s : String) (h9 : s.length = 9)
    (halpha : ∀ c ∈ s.toList, c = 'P' ∨ c = 'O' ∨ c = 'T') :
    (CtpHeader.fromString s).toString = s := by
  unfold CtpHeader.fromString CtpHeader.toString CtpHeader.make
  have hlen9 : (s.toList.map Trit.tritOfChar).length = 9 := by
    rw [List.length_map]
    exact h9
  rw [List.take_of_length_le (Nat.le_of_eq hlen9), hlen9]
  simp only [Nat.sub_self, List.replicate_zero, List.append_nil, List.map_map]
  have hid : s.toList.map (Trit.char ∘ Trit.tritOfChar) = s.toList.map id := by
    refine List.map_congr_left ?_
    intro c hc
    rcases halpha c hc with rfl | rfl | rfl <;> decide
  rw [hid, List.map_id]
  rfl

/-- Witness for C6 at a concrete 9-character string. -/
theorem CtpHeader.fromString_toString_witness :
    (CtpHeader.fromString "PPTOOOTPO").toString = "PPTOOOTPO" :=
  CtpHeader.fromString_toString "PPTOOOTPO" (by decide) (by decide)

/-- C9: every construction path yields exactly 9 slots: the constructor
truncates longer inputs to their first 9 trits and pads shorter inputs
with Pending; `fromString` (any string length) and the canonical
success/failed headers all produce 9 slots. -/
theorem CtpHeader.length_invariant :
    (∀ ts : List Trit,
      (CtpHeader.make ts).trits.length = 9
      ∧ (9 ≤ ts.length → (CtpHeader.make ts).trits = ts.take 9)
      ∧ (ts.length ≤ 9 →
          (CtpHeader.make ts).trits = ts ++ List.replicate (9 - ts.length) Trit.O))
    ∧ (∀ s : String, (CtpHeader.fromString s).trits.length = 9)
    ∧ CtpHeader.success.trits.length = 9
    ∧ CtpHeader.failed.trits.length = 9 := by
  have hmk : ∀ ts : List Trit, (CtpHeader.make ts).trits.length = 9 := by
    intro ts
    unfold CtpHeader.make
    simp [List.length_take]
  refine ⟨fun ts => ⟨hmk ts, fun hge => ?_, fun hle => ?_⟩,
    fun s => hmk _, by decide, by decide⟩
  · unfold CtpHeader.make
    have h9 : (ts.take 9).length = 9 := by
      rw [List.length_take]
      omega
    rw [h9]
    simp
  · unfold CtpHeader.make
    rw [List.take_of_length_le hle]

/-- Witness for C9: truncation at a 12-trit input, padding at a 1-trit input. -/
theorem CtpHeader.length_invariant_witness :
    (CtpHeader.make (List.replicate 12 Trit.P)).trits = (List.replicate 12 Trit.P).take 9
    ∧ (CtpHeader.make [Trit.T]).trits = [Trit.T] ++ List.replicate 8 Trit.O :=
  ⟨(CtpHeader.length_invariant.1 (List.replicate 12 Trit.P)).2.1 (by decide),
   (CtpHeader.length_invariant.1 [Trit.T]).2.2 (by decide)⟩

-- ═══════════ Theorems: CrownyLocal ═══════════

/-- Dividing by the normalized rational one is the identity. -/
theorem ratDiv_one (x : ℚ) : ratDiv x 1 = x := by
  unfold ratDiv
  rw [show (((1 : ℚ).den : Int)) = 1 from rfl, show (1 : ℚ).num = 1 from rfl,
    mul_one, mul_one, Rat.num_divInt_den]

/-- C3 counterexample: pushing 10, pushing 0, then the division token and
the terminator does not yield data 0 — the program of the claim evaluates
to data 10. -/
theorem CrownyLocal.div_zero_counterexample :
    (CrownyLocal.execute "넣어 10\n넣어 0\n나눠\n종료" 0).data
      ≠ RData.ofVal (some (Value.num (JsNum.fin 0))) := by
  decide

/-- C3 amended: the divisor is popped as `pop() || 1`, so a popped zero
divisor is falsy and is replaced by the default 1: the division pushes the
dividend unchanged rather than 0 (the explicit zero-divisor guard of the
source is unreachable), and it does not fail.  Pushing 10, pushing 0, then
the division token and the terminator yields data 10 with state Success. -/
theorem CrownyLocal.div_zero_divisor (x : ℚ) (st : List Value) :
    stepLine (Value.num (JsNum.fin 0) :: Value.num (JsNum.fin x) :: st) "나눠"
      = Value.num (JsNum.fin x) :: st
    ∧ (CrownyLocal.execute "넣어 10\n넣어 0\n나눠\n종료" 0).data
        = RData.ofVal (some (Value.num (JsNum.fin 10)))
    ∧ (CrownyLocal.execute "넣어 10\n넣어 0\n나눠\n종료" 0).state = Trit.P := by
  refine ⟨?_, by decide, rfl⟩
  have h : stepLine (Value.num (JsNum.fin 0) :: Value.num (JsNum.fin x) :: st) "나눠" =
      (let p1 := popDefault (Value.num (JsNum.fin 0) :: Value.num (JsNum.fin x) :: st)
        (.num (.fin 1));
       let p2 := popDefault p1.2 (.num (.fin 0));
       (if p1.1 = Value.num (.fin 0) then Value.num (.fin 0) else jsDiv p2.1 p1.1) :: p2.2) :=
    rfl
  rw [h]
  simp only [popDefault, Value.falsy]
  norm_num
  by_cases hx : x = 0
  · subst hx
    simp [jsDiv, jsToNumber, JsNum.div, ratDiv_one]
  · rw [if_neg (by simp [Value.falsy, hx])]
    simp [jsDiv, jsToNumber, JsNum.div, ratDiv_one]

/-- C10: `CrownyLocal.execute` always returns state Success, with data the
final top of stack (null for an empty stack); a line whose leading token is
not a recognized command leaves the stack unchanged (the dispatch switch
has no default case), so no evaluation fault reaches the caller and the
internal catch branch is unreachable. -/
theorem CrownyLocal.execute_always_success :
    (∀ (source : String) (e : ℕ),
      (CrownyLocal.execute source e).state = Trit.P
      ∧ (CrownyLocal.execute source e).data = RData.ofVal (runStack source).head?)
    ∧ (∀ (stack : List Value) (line : String),
        lineCmd line ∉ recognizedCmds → stepLine stack line = stack) := by
  refine ⟨fun source e => ⟨rfl, rfl⟩, fun stack line h => ?_⟩
  have hc : (tokens line).headD "" ∉ recognizedCmds := h
  have hmem : ∀ s : String, s ∈ recognizedCmds → (tokens line).headD "" ≠ s := by
    intro s hs he
    exact hc (he ▸ hs)
  simp only [stepLine]
  rw [if_neg, if_neg, if_neg, if_neg, if_neg, if_neg, if_neg, if_neg, if_neg, if_neg, if_neg]
  · rintro (h' | h')
    · exact hmem "거짓" (by decide) h'
    · exact hmem "T" (by decide) h'
  · rintro (h' | h')
    · exact hmem "모름" (by decide) h'
    · exact hmem "O" (by decide) h'
  · rintro (h' | h')
    · exact hmem "참" (by decide) h'
    · exact hmem "P" (by decide) h'
  · rintro (h' | h')
    · exact hmem "바꿔" (by decide) h'
    · exact hmem "swap" (by decide) h'
  · rintro (h' | h')
    · exact hmem "복사" (by decide) h'
    · exact hmem "dup" (by decide) h'
  · rintro (h' | h')
    · exact hmem "보여줘" (by decide) h'
    · exact hmem "print" (by decide) h'
  · rintro (h' | h')
    · exact hmem "나눠" (by decide) h'
    · exact hmem "div" (by decide) h'
  · rintro (h' | h' | h')
    · exact hmem "곱해" (by decide) h'
    · exact hmem "mul" (by decide) h'
    · exact hmem "곱" (by decide) h'
  · rintro (h' | h')
    · exact hmem "빼" (by decide) h'
    · exact hmem "sub" (by decide) h'
  · rintro (h' | h' | h')
    · exact hmem "더해" (by decide) h'
    · exact hmem "add" (by decide) h'
    · exact hmem "더" (by decide) h'
  · rintro (h' | h' | h' | h')
    · exact hmem "넣어" (by decide) h'
    · exact hmem "push" (by decide) h'
    · exact hmem "값" (by decide) h'
    · exact hmem "val" (by decide) h'

/-- Witness for C10 at a concrete unrecognized line. -/
theorem CrownyLocal.execute_always_success_witness :
    stepLine [] "bogus 1 2" = [] :=
  CrownyLocal.execute_always_success.2 [] "bogus 1 2" (by decide)

-- ═══════════ Theorems: CrownyClient ═══════════

/-- Both branches of `submit` append the returned result to the history. -/
theorem CrownyClient.submit_history_append (c : CrownyClient)
    (o : Except String Response) (e : ℕ) :
    ((c.submit o e).2).history = c.history ++ [(c.submit o e).1] := by
  cases o <;> rfl

/-- The history length after a sequence of submissions is the initial
length plus the number of submissions (nothing is ever evicted). -/
theorem CrownyClient.submitAll_history_length (c : CrownyClient)
    (os : List (Except String Response)) :
    (c.submitAll os).history.length = c.history.length + os.length := by
  induction os generalizing c with
  | nil => simp [CrownyClient.submitAll]
  | cons o rest ih =>
      have hstep : c.submitAll (o :: rest) = ((c.submit o 0).2).submitAll rest := rfl
      rw [hstep, ih, CrownyClient.submit_history_append]
      simp
      omega

/-- C2 counterexample: after 1001 submissions on a fresh client the history
holds 1001 entries — it exceeds the claimed 1000-entry cap, so no FIFO
eviction exists. -/
theorem CrownyClient.history_cap_counterexample :
    1000 < ((CrownyClient.init).submitAll
      (List.replicate 1001 (Except.error "connection error"))).history.length := by
  rw [CrownyClient.submitAll_history_length, List.length_replicate]
  decide

/-- C2 amended: every submit (success or failure) appends its TaskResult to
the history, but the history is unbounded: there is no 1000-entry cap and
no FIFO eviction — after n submissions the history holds the initial
entries plus all n results. -/
theorem CrownyClient.history_unbounded (c : CrownyClient)
    (os : List (Except String Response)) (o : Except String Response) (e : ℕ) :
    (c.submitAll os).history.length = c.history.length + os.length
    ∧ (c.submit o e).2.history = c.history ++ [(c.submit o e).1]
    ∧ (CrownyClient.init.submitAll os).history.length = os.length := by
  refine ⟨CrownyClient.submitAll_history_length c os,
    CrownyClient.submit_history_append c o e, ?_⟩
  rw [CrownyClient.submitAll_history_length]
  simp [CrownyClient.init]

/-- C7: `submit` never lets a transport failure escape: for every outcome
the produced TaskResult is appended to the history and returned, and on a
transport error the result has state Failed with the error description as
its data — exactly the same bookkeeping as a successful result. -/
theorem CrownyClient.submit_never_throws (c : CrownyClient)
    (outcome : Except String Response) (e : ℕ) :
    (c.submit outcome e).2.history = c.history ++ [(c.submit outcome e).1]
    ∧ (∀ err, outcome = .error err →
        (c.submit outcome e).1.state = Trit.T
        ∧ (c.submit outcome e).1.data = RData.ofError err) := by
  refine ⟨CrownyClient.submit_history_append c outcome e, ?_⟩
  rintro err rfl
  exact ⟨rfl, rfl⟩

/-- Witness for C7 at a concrete connection error. -/
theorem CrownyClient.submit_never_throws_witness :
    (CrownyClient.init.submit (.error "ECONNREFUSED") 7).1.state = Trit.T
    ∧ (CrownyClient.init.submit (.error "ECONNREFUSED") 7).1.data
        = RData.ofError "ECONNREFUSED" :=
  (CrownyClient.submit_never_throws CrownyClient.init (.error "ECONNREFUSED") 7).2
    "ECONNREFUSED" rfl

/-- C4 counterexample: a decodable response whose only status-bearing field
is the generic `status` key (set to "Success") yields state Pending from
the code, whereas reading "the first present field among the localized key,
the state key, then the status key" (the claim) would yield Success. -/
theorem CrownyClient.status_alias_counterexample :
    ((CrownyClient.init.submit (.ok ⟨none, none, some "Success", none, none⟩) 0).1.state
      = Trit.O)
    ∧ parseTrit (specStatusField ⟨none, none, some "Success", none, none⟩) = Trit.P
    ∧ ((CrownyClient.init.submit (.ok ⟨none, none, some "Success", none, none⟩) 0).1.state
      ≠ parseTrit (specStatusField ⟨none, none, some "Success", none, none⟩)) := by
  refine ⟨by decide, by decide, by decide⟩

/-- C4 amended: the ternary status of a decodable response is
`parseTrit(response.상태 || response.state || 'O')` — the first
present-and-nonempty field among the localized `상태` key and the English
`state` key; there is no generic `status` fallback.  If neither field is
present and nonempty, or the value's substring match indicates neither
success nor failure, the state is Pending. -/
theorem CrownyClient.submit_status_aliases (c : CrownyClient) (r : Response) (e : ℕ) :
    (c.submit (.ok r) e).1.state
      = parseTrit ((jsOrStr (jsOrStr r.sangtae r.state) (some "O")).getD "O")
    ∧ (jsOrStr r.sangtae r.state = none ∨ jsOrStr r.sangtae r.state = some "" →
        (c.submit (.ok r) e).1.state = Trit.O)
    ∧ (∀ s : String,
        hasSub s "P" = false → hasSub s "성공" = false → hasSub s "Success" = false →
        hasSub s "T" = false → hasSub s "실패" = false → hasSub s "Failed" = false →
        parseTrit s = Trit.O) := by
  refine ⟨rfl, ?_, ?_⟩
  · rintro (hn | he)
    · show parseTrit ((jsOrStr (jsOrStr r.sangtae r.state) (some "O")).getD "O") = Trit.O
      rw [hn]
      decide
    · show parseTrit ((jsOrStr (jsOrStr r.sangtae r.state) (some "O")).getD "O") = Trit.O
      rw [he]
      decide
  · intro s h1 h2 h3 h4 h5 h6
    unfold parseTrit
    rw [h1, h2, h3, h4, h5, h6]
    rfl

/-- Witness for C4 (amended) at a response with no status fields and at a
value matching no indicator. -/
theorem CrownyClient.submit_status_aliases_witness :
    (CrownyClient.init.submit (.ok ⟨none, none, none, none, none⟩) 0).1.state = Trit.O
    ∧ parseTrit "zzz" = Trit.O :=
  ⟨(CrownyClient.submit_status_aliases CrownyClient.init ⟨none, none, none, none, none⟩ 0).2.1
      (Or.inl rfl),
   (CrownyClient.submit_status_aliases CrownyClient.init ⟨none, none, none, none, none⟩ 0).2.2
      "zzz" rfl rfl rfl rfl rfl rfl⟩

-- ═══════════ Theorems: consensus call ═══════════

/-- The constructor normalization in one equation: take 9 of the input
extended by nine Pending slots. -/
theorem CtpHeader.make_trits (l : List Trit) :
    (CtpHeader.make l).trits = (l ++ List.replicate 9 Trit.O).take 9 := by
  unfold CtpHeader.make
  rcases le_or_lt 9 l.length with hl | hl
  · rw [List.take_append_of_le_length hl]
    have h9 : (l.take 9).length = 9 := by
      rw [List.length_take]
      omega
    rw [h9]
    simp
  · rw [List.take_of_length_le (le_of_lt hl), List.take_append_eq_append_take,
      List.take_of_length_le (le_of_lt hl), List.take_replicate]
    have hm : min (9 - l.length) 9 = 9 - l.length := by omega
    rw [hm]

/-- Taking `k` elements of a list padded by at least `k` filler elements
does not depend on the amount of padding. -/
theorem take_append_replicate_congr {α : Type} (a : α) (k : ℕ) (l : List α) (m n : ℕ)
    (hm : k ≤ l.length + m) (hn : k ≤ l.length + n) :
    (l ++ List.replicate m a).take k = (l ++ List.replicate n a).take k := by
  rw [List.take_append_eq_append_take, List.take_append_eq_append_take,
    List.take_replicate, List.take_replicate]
  congr 1
  congr 1
  omega

/-- C8: `consensusCall` aggregates the per-source results: `trits` lists the
per-source states in the caller-supplied dispatch order (`Promise.all`
preserves input order, so this is independent of completion order),
`consensus` is `Trit.consensus` of those states, the per-source pairing
follows the same order, and the header carries the aggregated trit in the
first slot followed by the raw per-source trits with the remaining slots
Pending (within the header's fixed 9 slots). -/
theorem CrownyClient.consensus_spec (ask : String → TritResult)
    (models : List String) (e : ℕ) :
    (CrownyClient.consensus ask models e).trits = models.map (fun m => (ask m).state)
    ∧ (CrownyClient.consensus ask models e).consensus
        = Trit.consensus (models.map (fun m => (ask m).state))
    ∧ (CrownyClient.consensus ask models e).models = models.zip (models.map ask)
    ∧ (CrownyClient.consensus ask models e).ctp.trits
        = ((Trit.consensus (models.map (fun m => (ask m).state))
            :: models.map (fun m => (ask m).state)) ++ List.replicate 8 Trit.O).take 9 := by
  have htr : (models.map ask).map (fun r => r.state) = models.map (fun m => (ask m).state) := by
    rw [List.map_map]
    rfl
  have hcons : (CrownyClient.consensus ask models e).consensus
      = Trit.consensus (models.map (fun m => (ask m).state)) := by
    show Trit.consensus ((models.map ask).map (fun r => r.state))
        = Trit.consensus (models.map (fun m => (ask m).state))
    rw [htr]
  refine ⟨htr, hcons, rfl, ?_⟩
  show (CtpHeader.make (Trit.consensus ((models.map ask).map (fun r => r.state))
      :: (models.map ask).map (fun r => r.state) ++ [.O, .O, .O, .O, .O])).trits = _
  rw [CtpHeader.make_trits, htr]
  have hre : Trit.consensus (models.map (fun m => (ask m).state))
        :: models.map (fun m => (ask m).state) ++ [Trit.O, Trit.O, Trit.O, Trit.O, Trit.O]
      = (Trit.consensus (models.map (fun m => (ask m).state))
        :: models.map (fun m => (ask m).state)) ++ List.replicate 5 Trit.O := by
    simp
  rw [hre, List.append_assoc, ← List.replicate_add]
  exact take_append_replicate_congr Trit.O 9 _ 14 8 (by simp) (by simp)

end Crowny
